import Mathlib

/-
Verification of the Intergas central-heating monitor's protocol engine
(`ch_intergas_reader.ino` and its Homie variant): the byte decoder
`getDouble`, the frame assembler `readStatus`, the status decoder
`processStatus`, and the polling loop with its scan-period
reconfiguration.  Machine integers are modelled as `Nat`/`Int` (the C
`long` time arithmetic as `Int`), floating-point results as exact
rationals, and the single-threaded control loop as an explicit state
machine driven by a list of external events.
-/

namespace Intergas

/-- Fixed-point byte-pair decoder, from `getDouble` in the source.  In the
C source the negative branch `-(((msb ^ 255) + 1) * 256 - lsb) / 100` is
computed entirely in `int` arithmetic (every operand is an `int`), so the
division truncates toward zero (C99 semantics, `Int.tdiv`) before the
result is widened to `double`.  The non-negative branch casts the numerator
to `float` first, so its division is exact rational division. -/
def getDouble (msb lsb : Nat) : ℚ :=
  if 127 < msb then
    ((Int.tdiv (-(((((msb ^^^ 255) + 1) * 256 : Nat) : Int) - (lsb : Int))) 100 : Int) : ℚ)
  else
    ((msb * 256 + lsb : Nat) : ℚ) / 100

/-- Timeout window, from `#define TimeoutIntergas (3*1000)` (milliseconds). -/
def TimeoutIntergas : Int := 3 * 1000

/-- Frame length, from `#define StatusMsgLen 32`. -/
def StatusMsgLen : Nat := 32

/-- The decoded status snapshot: the `ch_*` globals that `processStatus`
assigns from a completed 32-byte frame. -/
structure Snapshot where
  t1 : ℚ
  t2 : ℚ
  t3 : ℚ
  t4 : ℚ
  t5 : ℚ
  fanspeed : ℚ
  fanspeed_setpoint : ℚ
  fan_pwm : ℚ
  io_current : ℚ
  pressure : ℚ
  temp_flow : ℚ
  temp_setpoint : ℚ
  status_byte1 : Nat
  status_byte2 : Nat
  has_pressure_sensor : Bool
  status_code : Nat
  fault_code : Nat

/-- The fault test from `processStatus`: the C expression
`inputBuffer[27] & 0x80 != 0x80` parses, by C operator precedence
(`!=` binds tighter than `&`), as `inputBuffer[27] & (0x80 != 0x80)`,
that is `inputBuffer[27] & 0`, which is always `0` and hence falsy. -/
def faultTest (b27 : Nat) : Bool :=
  (b27 &&& (if (0x80 : Nat) ≠ 0x80 then 1 else 0)) != 0

/-- Status decoder, from `processStatus` in the source: decodes the fixed
offsets of a 32-byte frame into the `ch_*` snapshot fields. -/
def processStatus (buf : Fin 32 → Nat) : Snapshot :=
  let hasPS : Bool := (buf 28 &&& 0x20) == 0x20
  let rawPressure : ℚ := getDouble (buf 13) (buf 12)
  let faultBranch : Bool := faultTest (buf 27)
  { t1 := getDouble (buf 1) (buf 0)
    t2 := getDouble (buf 5) (buf 4)
    t3 := getDouble (buf 7) (buf 6)
    t4 := getDouble (buf 9) (buf 8)
    t5 := getDouble (buf 11) (buf 10)
    fanspeed := getDouble (buf 19) (buf 18) * 100
    fanspeed_setpoint := getDouble (buf 17) (buf 16) * 100
    fan_pwm := getDouble (buf 21) (buf 20) * 10
    io_current := getDouble (buf 23) (buf 22)
    pressure := if hasPS then rawPressure else -35
    temp_flow := getDouble (buf 3) (buf 2)
    temp_setpoint := getDouble (buf 15) (buf 14)
    status_byte1 := buf 26
    status_byte2 := buf 28
    has_pressure_sensor := hasPS
    status_code := if faultBranch then 256 + buf 29 else buf 24
    fault_code := if faultBranch then buf 29 else 0 }

/-- The mutable globals of the sketch that the protocol engine touches:
`messageReceived`, `waitingForAnswer`, `inputBuffer` (64-byte array,
modelled as a total function on indices), `writeIndex`, `receiveTimer`,
`lastMsg` and `scanPeriod` (C `long`s modelled as `Int`). -/
structure CHState where
  messageReceived : Bool
  waitingForAnswer : Bool
  inputBuffer : Nat → Nat
  writeIndex : Nat
  receiveTimer : Int
  lastMsg : Int
  scanPeriod : Int

/-- Initial state after `setup()`: flags cleared, zeroed globals,
`scanPeriod = 5000` ms (the `.ino` default; the Homie variant uses
10000 ms, which does not affect any claim). -/
def initState : CHState where
  messageReceived := false
  waitingForAnswer := false
  inputBuffer := fun _ => 0
  writeIndex := 0
  receiveTimer := 0
  lastMsg := 0
  scanPeriod := 5000

/-- Observable events of one `readStatus` call: the `"Timeout Intergas"`
report, or frame completion (the 32nd byte received). -/
inductive RSEvent where
  | timeout
  | frameComplete
deriving DecidableEq

/-- Result of one `readStatus` call: the updated globals, the remaining
serial input queue, and the observable event, if any. -/
structure RSResult where
  st : CHState
  serial : List Nat
  ev : Option RSEvent

/-- Frame assembler, from `readStatus` in the source.  The pending serial
input is the list `serial`; `intergas.available()` is `serial ≠ []` and
`intergas.read()` takes its head — the source reads at most one byte per
call.  `t` is the current `millis()` value. -/
def readStatus (t : Int) (s : CHState) (serial : List Nat) : RSResult :=
  if s.waitingForAnswer then
    if t - s.receiveTimer ≤ TimeoutIntergas then
      match serial with
      | [] => ⟨s, [], none⟩
      | ch :: rest =>
        let s1 : CHState :=
          { s with inputBuffer := Function.update s.inputBuffer s.writeIndex ch,
                   writeIndex := s.writeIndex + 1 }
        if s1.writeIndex = StatusMsgLen then
          ⟨{ s1 with writeIndex := 0, waitingForAnswer := false, messageReceived := true },
           rest, some RSEvent.frameComplete⟩
        else
          ⟨s1, rest, none⟩
    else
      ⟨{ s with writeIndex := 0, waitingForAnswer := false }, serial, some RSEvent.timeout⟩
  else
    ⟨s, serial, none⟩

/-- Request issuance, from `requestStatus` in the source: sets
`waitingForAnswer` and anchors `receiveTimer` at the current time.  The
serial flush (`intergasFlush`) and the 3-byte `'S' '?' '\r'` write are
handled at the call site in `loopStep`, where the serial queue lives. -/
def requestStatus (t : Int) (s : CHState) : CHState :=
  { s with waitingForAnswer := true, receiveTimer := t }

/-- The protocol-relevant system state: the sketch globals plus the
pending serial input queue of the boiler link. -/
structure SysState where
  ch : CHState
  serial : List Nat

/-- Result of one control-loop iteration, with two observations:
`issuedWhileWaiting` records that this iteration wrote a new `'S' '?' '\r'`
request while `waitingForAnswer` was still true, and `decodeRan` records
that `processStatus`/`sendStatus` consumed a completed frame. -/
structure LoopResult where
  sys : SysState
  issuedWhileWaiting : Bool
  decodeRan : Bool

/-- One iteration of `loop()` (equivalently `loopHandler` in the Homie
variant), restricted to the protocol engine: the scheduler check
`timeInMillis - lastMsg > scanPeriod` fires `requestStatus` (preceded by
the serial flush) with no guard on `waitingForAnswer`; then `readStatus`
runs, and a completed frame is decoded and published (which clears
`messageReceived` in `sendStatus`). -/
def loopStep (t : Int) (sys : SysState) : LoopResult :=
  let fire : Bool := decide (t - sys.ch.lastMsg > sys.ch.scanPeriod)
  let issued := fire && sys.ch.waitingForAnswer
  let s1 : CHState := if fire then { requestStatus t sys.ch with lastMsg := t } else sys.ch
  let serial1 : List Nat := if fire then [] else sys.serial
  let r := readStatus t s1 serial1
  let s2 : CHState :=
    if r.st.messageReceived then { r.st with messageReceived := false } else r.st
  ⟨⟨s2, r.serial⟩, issued, r.st.messageReceived⟩

/-- Scan-period reconfiguration, from `MQTT_callback` (topic
`chig1/set/scan-period`; identically `centralHeatingPeriodHandler` in the
Homie variant): a value in seconds greater than 1 becomes the new scan
period in milliseconds, any other value leaves the setting unchanged. -/
def scanPeriodCommand (period sp : Int) : Int :=
  if period > 1 then period * 1000 else sp

/-- External events driving the single-threaded system: a byte arriving
on the serial link, a scan-period reconfiguration command, and one
control-loop iteration at `millis() = t`. -/
inductive Event where
  | arrive (b : Nat)
  | setScanPeriodCmd (v : Int)
  | loopIter (t : Int)

/-- One event step; the boolean observation is `issuedWhileWaiting` of a
loop iteration. -/
def stepEv (e : Event) (sys : SysState) : SysState × Bool :=
  match e with
  | .arrive b => (⟨sys.ch, sys.serial ++ [b]⟩, false)
  | .setScanPeriodCmd v =>
      (⟨{ sys.ch with scanPeriod := scanPeriodCommand v sys.ch.scanPeriod }, sys.serial⟩, false)
  | .loopIter t =>
      let r := loopStep t sys
      (r.sys, r.issuedWhileWaiting)

/-- Run a list of events from a given state, accumulating whether any loop
iteration issued a request while `waitingForAnswer` was true. -/
def runFrom (sys : SysState) (flag : Bool) : List Event → SysState × Bool
  | [] => (sys, flag)
  | e :: es =>
      let p := stepEv e sys
      runFrom p.1 (flag || p.2) es

/-- Run a list of events from the initial state. -/
def run (es : List Event) : SysState × Bool :=
  runFrom ⟨initState, []⟩ false es

/-- Buffer-safety invariant: the write index stays at most 31, and every
cell of the input buffer beyond the 32-byte frame region still holds its
initial value 0. -/
def BufInv (s : CHState) : Prop :=
  s.writeIndex ≤ 31 ∧ ∀ i, 32 ≤ i → s.inputBuffer i = 0

/-- Concrete frame for the status-code claims: byte 24 = 42, byte 27 = 0
(fault-present bit 0x80 clear), byte 29 = 7, all other bytes 0. -/
def frameFault : Fin 32 → Nat := fun i =>
  if (i : Nat) = 24 then 42 else if (i : Nat) = 29 then 7 else 0

/-- The all-zero frame (byte 28 bit 0x20 clear: no pressure sensor). -/
def zeroFrame : Fin 32 → Nat := fun _ => 0

/-- A state awaiting the 32nd byte: request issued at time 0, 31 bytes
already buffered. -/
def stateAt31 : CHState :=
  { initState with waitingForAnswer := true, writeIndex := 31 }

/-- A state awaiting a response with nothing received yet. -/
def waitingSys : SysState :=
  ⟨{ initState with waitingForAnswer := true }, []⟩

/-- A state awaiting a response with two bytes pending on the serial link. -/
def sysTwoBytes : SysState :=
  ⟨{ initState with waitingForAnswer := true }, [0x11, 0x22]⟩

theorem faultTest_false (b27 : Nat) : faultTest b27 = false := by
  simp [faultTest]

/-- C1: the claim states that with the fault-present bit (0x80 of byte 27)
clear the decoder sets `fault_code` to byte 29 and `status_code` to
`256 + fault_code`.  The code's test `inputBuffer[27] & 0x80 != 0x80` is,
by C precedence, `inputBuffer[27] & 0`, which is always false, so for
every frame the decoder takes the else branch: `fault_code = 0` and
`status_code` is the raw byte 24.  In particular the frame with
byte 27 = 0x00, byte 29 = 7, byte 24 = 42 yields `status_code = 42` and
`fault_code = 0`, not 263 and 7. -/
theorem processStatus_fault_branch_never_taken :
    (∀ buf : Fin 32 → Nat,
      (processStatus buf).fault_code = 0 ∧ (processStatus buf).status_code = buf 24) ∧
    (processStatus frameFault).status_code = 42 ∧
    (processStatus frameFault).fault_code = 0 := by
  refine ⟨fun buf => ?_, by decide, by decide⟩
  simp [processStatus, faultTest_false]

/-- C3 counterexample: the claim's example `(0xFF, 0x00) → -2.56` is false:
the negative branch of `getDouble` is all-integer C arithmetic, so
`-(256)/100` truncates toward zero and the result is `-2`. -/
theorem getDouble_255_0_ne :
    getDouble 255 0 = -2 ∧ getDouble 255 0 ≠ -64 / 25 := by
  have h : getDouble 255 0 = -2 := by decide
  refine ⟨h, ?_⟩
  rw [h]
  norm_num

/-- C3 amended: for `msb > 127` the result is the integer truncation
toward zero of `-(((msb XOR 0xFF) + 1) * 256 - lsb) / 100`, that is
`-(X / 100)` with `X = ((msb XOR 255) + 1) * 256 - lsb` and Nat division;
it is nonpositive, and strictly negative exactly when `X ≥ 100`; in
particular `(0xFF, 0x9C)` decodes to `-1` (as the claim says) but
`(0xFF, 0x00)` decodes to `-2`, not `-2.56`. -/
theorem getDouble_neg (msb lsb : Nat) (h : 127 < msb) (hm : msb ≤ 255) (hl : lsb ≤ 255) :
    getDouble msb lsb = -(((((msb ^^^ 255) + 1) * 256 - lsb) / 100 : Nat) : ℚ) ∧
    getDouble msb lsb ≤ 0 ∧
    (100 ≤ ((msb ^^^ 255) + 1) * 256 - lsb → getDouble msb lsb < 0) := by
  have hle : lsb ≤ ((msb ^^^ 255) + 1) * 256 := by
    calc lsb ≤ 255 := hl
    _ ≤ ((msb ^^^ 255) + 1) * 256 := by nlinarith [Nat.zero_le (msb ^^^ 255)]
  have hsub : ((((msb ^^^ 255) + 1) * 256 : Nat) : Int) - (lsb : Int)
      = ((((msb ^^^ 255) + 1) * 256 - lsb : Nat) : Int) := by
    omega
  have hkey : getDouble msb lsb = -(((((msb ^^^ 255) + 1) * 256 - lsb) / 100 : Nat) : ℚ) := by
    rw [getDouble, if_pos h, hsub]
    rw [show ∀ n : Nat, Int.tdiv (-(n : Int)) 100 = -(((n / 100 : Nat) : Int)) from
      fun n => by rw [Int.neg_tdiv]; rfl]
    simp only [Int.cast_neg, Int.cast_natCast]
  refine ⟨hkey, ?_, ?_⟩
  · rw [hkey]
    simp
  · intro h100
    rw [hkey]
    have : 1 ≤ (((msb ^^^ 255) + 1) * 256 - lsb) / 100 := Nat.one_le_div_iff (by norm_num) |>.mpr h100
    have : (1 : ℚ) ≤ (((((msb ^^^ 255) + 1) * 256 - lsb) / 100 : Nat) : ℚ) := by
      exact_mod_cast this
    linarith

/-- C3 amended witness at the claim's own example `(0xFF, 0x9C)`. -/
theorem getDouble_neg_witness :
    getDouble 255 156 = -(((((255 ^^^ 255) + 1) * 256 - 156) / 100 : Nat) : ℚ) ∧
    getDouble 255 156 ≤ 0 ∧
    (100 ≤ ((255 ^^^ 255) + 1) * 256 - 156 → getDouble 255 156 < 0) :=
  getDouble_neg 255 156 (by decide) (by decide) (by decide)

/-- C6: if bit 0x20 of byte 28 is clear the decoded pressure is forced to
-35 regardless of bytes 12/13; if it is set, the pressure is the
fixed-point decode of bytes 13 (MSB) and 12 (LSB). -/
theorem processStatus_pressure_override (buf : Fin 32 → Nat) :
    ((buf 28 &&& 0x20) ≠ 0x20 → (processStatus buf).pressure = -35) ∧
    ((buf 28 &&& 0x20) = 0x20 → (processStatus buf).pressure = getDouble (buf 13) (buf 12)) := by
  constructor <;> intro hb <;> simp [processStatus, hb]

/-- C6 witness: the all-zero frame has bit 0x20 of byte 28 clear, and its
decoded pressure is -35. -/
theorem processStatus_pressure_override_witness :
    (zeroFrame 28 &&& 0x20) ≠ 0x20 ∧ (processStatus zeroFrame).pressure = -35 :=
  ⟨by decide, (processStatus_pressure_override zeroFrame).1 (by decide)⟩

/-- C7: for `msb ≤ 127` the decoder returns `(msb*256 + lsb)/100` (the
positive branch casts to float and divides, exact here as a rational),
which is non-negative. -/
theorem getDouble_nonneg (msb lsb : Nat) (h : msb ≤ 127) :
    getDouble msb lsb = ((msb * 256 + lsb : Nat) : ℚ) / 100 ∧ 0 ≤ getDouble msb lsb := by
  have he : getDouble msb lsb = ((msb * 256 + lsb : Nat) : ℚ) / 100 := by
    rw [getDouble, if_neg (by omega)]
  refine ⟨he, ?_⟩
  rw [he]
  positivity

/-- C7 witness at the branch boundary `(127, 255)`. -/
theorem getDouble_nonneg_witness :
    getDouble 127 255 = ((127 * 256 + 255 : Nat) : ℚ) / 100 ∧ 0 ≤ getDouble 127 255 :=
  getDouble_nonneg 127 255 (by decide)

/-- C2 counterexample: with the default 5000 ms scan period, a request is
issued at t = 5001 (no response bytes ever arrive, so the 3000 ms timeout
is never processed because no loop iteration happens in between), and the
iteration at t = 10002 fires the scheduler again while `waitingForAnswer`
is still true: a new `'S' '?' '\r'` request is issued while the assembler
is `AwaitingResponse`. -/
theorem loop_request_while_waiting_cex :
    (run [Event.loopIter 5001, Event.loopIter 10002]).2 = true ∧
    (run [Event.loopIter 5001]).1.ch.waitingForAnswer = true := by
  constructor <;> decide

/-- C2 amended: the scheduler check `timeInMillis - lastMsg > scanPeriod`
does not consult `waitingForAnswer`, so whenever the scan period has
elapsed at a loop iteration, a new request is issued even while the
assembler is still `AwaitingResponse`; at most one outstanding request is
not guaranteed. -/
theorem loop_scheduler_unguarded (t : Int) (sys : SysState)
    (hw : sys.ch.waitingForAnswer = true)
    (hf : sys.ch.scanPeriod < t - sys.ch.lastMsg) :
    (loopStep t sys).issuedWhileWaiting = true := by
  simp only [loopStep, hw, Bool.and_true, decide_eq_true_eq]
  exact hf

/-- C2 amended witness: a waiting state with an elapsed scan period does
issue a request while `AwaitingResponse`. -/
theorem loop_scheduler_unguarded_witness :
    (loopStep 5001 waitingSys).issuedWhileWaiting = true :=
  loop_scheduler_unguarded 5001 waitingSys rfl (by decide)

/-- C4: while `AwaitingResponse` with 31 bytes buffered, a 32nd byte
received with at most 3000 ms elapsed since the request completes the
frame: the state returns to Idle (`waitingForAnswer = false`) with
`messageReceived = true` (the flag that hands the buffer to
`processStatus`), the write index resets to 0, and the byte lands at
offset 31.  The witness instantiates this at 2999 ms elapsed. -/
theorem readStatus_frame_complete (t : Int) (s : CHState) (b : Nat) (rest : List Nat)
    (hw : s.waitingForAnswer = true) (hwi : s.writeIndex = 31)
    (ht : t - s.receiveTimer ≤ 3000) :
    (readStatus t s (b :: rest)).st.waitingForAnswer = false ∧
    (readStatus t s (b :: rest)).st.messageReceived = true ∧
    (readStatus t s (b :: rest)).st.writeIndex = 0 ∧
    (readStatus t s (b :: rest)).st.inputBuffer 31 = b ∧
    (readStatus t s (b :: rest)).ev = some RSEvent.frameComplete := by
  have ht' : t - s.receiveTimer ≤ TimeoutIntergas := by
    unfold TimeoutIntergas
    omega
  rw [readStatus, if_pos hw, if_pos ht']
  rw [if_pos (show s.writeIndex + 1 = StatusMsgLen by simp [StatusMsgLen, hwi])]
  refine ⟨rfl, rfl, rfl, ?_, rfl⟩
  show Function.update s.inputBuffer s.writeIndex b 31 = b
  rw [hwi]
  exact Function.update_same 31 b s.inputBuffer

/-- C4 witness: the 32nd byte arriving 2999 ms after the request still
completes the frame normally. -/
theorem readStatus_frame_complete_witness :
    (readStatus 2999 stateAt31 [0x55]).st.waitingForAnswer = false ∧
    (readStatus 2999 stateAt31 [0x55]).st.messageReceived = true ∧
    (readStatus 2999 stateAt31 [0x55]).st.writeIndex = 0 ∧
    (readStatus 2999 stateAt31 [0x55]).st.inputBuffer 31 = 0x55 ∧
    (readStatus 2999 stateAt31 [0x55]).ev = some RSEvent.frameComplete :=
  readStatus_frame_complete 2999 stateAt31 0x55 [] rfl rfl (by decide)

/-- C5: while `AwaitingResponse` with fewer than 32 bytes received, once
more than the 3000 ms window has elapsed the partial buffer is discarded
(write index reset to 0), the state returns to Idle, `messageReceived`
stays false (so `processStatus`, which is guarded on it, never decodes the
partial frame), and the Timeout is reported. -/
theorem readStatus_timeout (t : Int) (s : CHState) (serial : List Nat)
    (hw : s.waitingForAnswer = true) (hm : s.messageReceived = false)
    (hlt : s.writeIndex < 32) (ht : 3000 < t - s.receiveTimer) :
    (readStatus t s serial).st.writeIndex = 0 ∧
    (readStatus t s serial).st.waitingForAnswer = false ∧
    (readStatus t s serial).st.messageReceived = false ∧
    (readStatus t s serial).ev = some RSEvent.timeout := by
  have ht' : ¬(t - s.receiveTimer ≤ TimeoutIntergas) := by
    unfold TimeoutIntergas
    omega
  rw [readStatus.eq_def, if_pos hw, if_neg ht']
  exact ⟨rfl, rfl, hm, rfl⟩

/-- C5 witness: a request issued at time 0 with no byte received times out
at 3001 ms. -/
theorem readStatus_timeout_witness :
    (readStatus 3001 waitingSys.ch []).st.writeIndex = 0 ∧
    (readStatus 3001 waitingSys.ch []).st.waitingForAnswer = false ∧
    (readStatus 3001 waitingSys.ch []).st.messageReceived = false ∧
    (readStatus 3001 waitingSys.ch []).ev = some RSEvent.timeout :=
  readStatus_timeout 3001 waitingSys.ch [] rfl rfl (by decide) (by decide)

/-- C8 counterexample: a loop iteration does not drain all available
serial bytes.  With two bytes pending and the scheduler not firing, one
iteration appends exactly one byte and leaves the second queued for a
later iteration. -/
theorem loop_single_byte_cex :
    (loopStep 1 sysTwoBytes).sys.serial = [0x22] ∧
    (loopStep 1 sysTwoBytes).sys.ch.writeIndex = 1 := by
  constructor <;> decide

/-- C8 amended: while `AwaitingResponse` and within the timeout window,
each `readStatus` call (one per loop iteration) appends at most one byte —
the head of the pending input — at the next free position `writeIndex`;
the remaining bytes stay queued for later iterations. -/
theorem readStatus_appends_one (t : Int) (s : CHState) (b : Nat) (rest : List Nat)
    (hw : s.waitingForAnswer = true) (ht : t - s.receiveTimer ≤ 3000) :
    (readStatus t s (b :: rest)).st.inputBuffer s.writeIndex = b ∧
    (readStatus t s (b :: rest)).serial = rest := by
  have ht' : t - s.receiveTimer ≤ TimeoutIntergas := by
    unfold TimeoutIntergas
    omega
  rw [readStatus, if_pos hw, if_pos ht']
  by_cases h32 : s.writeIndex + 1 = StatusMsgLen
  · rw [if_pos h32]
    exact ⟨Function.update_same s.writeIndex b s.inputBuffer, rfl⟩
  · rw [if_neg h32]
    exact ⟨Function.update_same s.writeIndex b s.inputBuffer, rfl⟩

/-- C8 amended witness: one byte of two is appended at position 0. -/
theorem readStatus_appends_one_witness :
    (readStatus 1 sysTwoBytes.ch (0x11 :: [0x22])).st.inputBuffer sysTwoBytes.ch.writeIndex = 0x11 ∧
    (readStatus 1 sysTwoBytes.ch (0x11 :: [0x22])).serial = [0x22] :=
  readStatus_appends_one 1 sysTwoBytes.ch 0x11 [0x22] rfl (by decide)

/-- C9: a scan-period command with value at most 1 second is ignored and
the previous scan period is retained; a value greater than 1 becomes the
new scan period converted to milliseconds. -/
theorem scanPeriodCommand_spec (v sp : Int) :
    (v ≤ 1 → scanPeriodCommand v sp = sp) ∧
    (1 < v → scanPeriodCommand v sp = v * 1000) := by
  constructor <;> intro h <;> simp [scanPeriodCommand] <;> omega

/-- C9 witness: value 1 is rejected (period retained), value 2 gives
2000 ms. -/
theorem scanPeriodCommand_spec_witness :
    scanPeriodCommand 1 5000 = 5000 ∧ scanPeriodCommand 2 5000 = 2000 :=
  ⟨(scanPeriodCommand_spec 1 5000).1 (by decide),
   (scanPeriodCommand_spec 2 5000).2 (by decide)⟩

theorem readStatus_bufInv (t : Int) (s : CHState) (serial : List Nat) (h : BufInv s) :
    BufInv (readStatus t s serial).st := by
  obtain ⟨h1, h2⟩ := h
  rw [readStatus.eq_def]
  split
  · split
    · cases serial with
      | nil => exact ⟨h1, h2⟩
      | cons b rest =>
        dsimp only
        split
        · refine ⟨?_, fun i hi => ?_⟩
          · show (0 : Nat) ≤ 31
            omega
          · show Function.update s.inputBuffer s.writeIndex b i = 0
            rw [Function.update_apply, if_neg (by omega)]
            exact h2 i hi
        · rename_i hne
          refine ⟨?_, fun i hi => ?_⟩
          · show s.writeIndex + 1 ≤ 31
            simp only [StatusMsgLen] at hne
            omega
          · show Function.update s.inputBuffer s.writeIndex b i = 0
            rw [Function.update_apply, if_neg (by omega)]
            exact h2 i hi
    · refine ⟨?_, h2⟩
      show (0 : Nat) ≤ 31
      omega
  · exact ⟨h1, h2⟩

theorem loopStep_bufInv (t : Int) (sys : SysState) (h : BufInv sys.ch) :
    BufInv (loopStep t sys).sys.ch := by
  have key : ∀ (s : CHState) (q : List Nat), BufInv s →
      BufInv (if (readStatus t s q).st.messageReceived = true
              then { (readStatus t s q).st with messageReceived := false }
              else (readStatus t s q).st) := by
    intro s q hs
    have hr := readStatus_bufInv t s q hs
    split
    · exact ⟨hr.1, hr.2⟩
    · exact hr
  rw [loopStep]
  dsimp only
  split
  · exact key _ _ h
  · exact key _ _ h

theorem stepEv_bufInv (e : Event) (sys : SysState) (h : BufInv sys.ch) :
    BufInv (stepEv e sys).1.ch := by
  cases e with
  | arrive b => exact h
  | setScanPeriodCmd v => exact h
  | loopIter t => exact loopStep_bufInv t sys h

theorem runFrom_bufInv (es : List Event) (sys : SysState) (flag : Bool) (h : BufInv sys.ch) :
    BufInv (runFrom sys flag es).1.ch := by
  induction es generalizing sys flag with
  | nil => exact h
  | cons e es ih =>
    rw [runFrom]
    exact ih _ _ (stepEv_bufInv e sys h)

/-- C10: in every state reachable from the initial state by any sequence
of byte arrivals, scan-period commands and loop iterations, the write
index is at most 31 (it is reset to 0 exactly on the 32nd byte and on
timeout), so every append lands inside the 32-byte frame region: the
cells of the input buffer at offsets 32 and beyond are never written. -/
theorem run_writeIndex_safe (es : List Event) :
    (run es).1.ch.writeIndex ≤ 31 ∧
    ∀ i, 32 ≤ i → (run es).1.ch.inputBuffer i = 0 :=
  runFrom_bufInv es ⟨initState, []⟩ false ⟨by decide, fun _ _ => rfl⟩

/-- C10 witness: after a request and one appended byte, the write index is
1 and cell 32 is untouched. -/
theorem run_writeIndex_safe_witness :
    (run [Event.loopIter 5001, Event.arrive 7, Event.loopIter 5002]).1.ch.writeIndex ≤ 31 ∧
    (run [Event.loopIter 5001, Event.arrive 7, Event.loopIter 5002]).1.ch.inputBuffer 32 = 0 :=
  ⟨(run_writeIndex_safe [Event.loopIter 5001, Event.arrive 7, Event.loopIter 5002]).1,
   (run_writeIndex_safe [Event.loopIter 5001, Event.arrive 7, Event.loopIter 5002]).2 32
     (by decide)⟩

end Intergas
